import Mathlib

/-!
Verification of the KathaChitra video composition engine
(`backend/services/video_service.py`, `backend/utils/file_handler.py`,
`backend/main.py`) against its natural-language specification.

Strings are modelled as `List Char`; times and durations as `ℚ`
(the Python code computes with floats, whose rounding is immaterial to the
properties checked here); the outcomes of external subprocesses
(ffprobe / ffmpeg) are oracle parameters, since the engine only branches on
exit status, captured output and raised timeouts.
-/

namespace KathaChitra

/-- Whitespace characters recognised by Python's `str.split()` and by `\s`
in the `re` module (ASCII range; the stories handled here are plain text). -/
def isSpace (c : Char) : Bool :=
  c = ' ' || c = '\t' || c = '\n' || c = '\r' || c = '\x0b' || c = '\x0c'

/-- Sentence-terminal punctuation of the lookbehind `(?<=[.!?])` in
`video_service.py` line 119. -/
def isTerm (c : Char) : Bool :=
  c = '.' || c = '!' || c = '?'

def notSpace (c : Char) : Bool := !(isSpace c)

/-- Accumulator-passing core of Python's `str.split()` (no separator):
`acc` holds the characters of the current word, reversed.  Maximal runs of
non-whitespace become words; no empty words are produced. -/
def pyWordsAux : List Char → List Char → List (List Char)
  | [], acc => if acc.isEmpty then [] else [acc.reverse]
  | c :: cs, acc =>
    if isSpace c then
      if acc.isEmpty then pyWordsAux cs [] else acc.reverse :: pyWordsAux cs []
    else pyWordsAux cs (c :: acc)

/-- Python `s.split()`: the list of whitespace-separated words of `s`
(used at `video_service.py` lines 124, 136 and 144). -/
def pyWords (l : List Char) : List (List Char) := pyWordsAux l []

/-- Character-level scan equivalent to `re.split(r'(?<=[.!?])\s+', text)`
(`video_service.py` line 119).  `acc` holds the current piece reversed;
`skipping` is true while consuming the whitespace run that follows a
sentence terminator (that run is the delimiter and is discarded).  A split
happens exactly at a whitespace character whose predecessor is `[.!?]`,
and the greedy `\s+` consumes the whole run. -/
def senSplitAux : List Char → List Char → Bool → List (List Char)
  | [], acc, _ => [acc.reverse]
  | c :: cs, acc, true =>
    if isSpace c then senSplitAux cs acc true
    else senSplitAux cs (c :: acc) false
  | c :: cs, acc, false =>
    if isSpace c then
      match acc with
      | p :: ps =>
        if isTerm p then (p :: ps).reverse :: senSplitAux cs [] true
        else senSplitAux cs (c :: p :: ps) false
      | [] => senSplitAux cs [c] false
    else senSplitAux cs (c :: acc) false

/-- `re.split(r'(?<=[.!?])\s+', text)`: split the story into sentence-like
pieces after terminal punctuation followed by whitespace. -/
def senSplit (l : List Char) : List (List Char) := senSplitAux l [] false

/-- Counting core of the chunking loop `for i in range(0, len(words), 8)`
(`video_service.py` lines 126-129): `budget` slots remain in the current
chunk, whose members are held reversed in `acc`. -/
def chunksAux {α : Type} : List α → ℕ → List α → List (List α)
  | [], _, acc => if acc.isEmpty then [] else [acc.reverse]
  | x :: xs, 0, acc => acc.reverse :: chunksAux xs 7 [x]
  | x :: xs, n + 1, acc => chunksAux xs n (x :: acc)

/-- `words[i:i+8]` chunking: groups of at most 8 words, in order; an empty
word list yields no chunks (matching `range(0, 0, 8)` being empty). -/
def chunks8 {α : Type} (l : List α) : List (List α) := chunksAux l 8 []

/-- Python `" ".join(chunk_words)` (`video_service.py` line 129). -/
def joinSp : List (List Char) → List Char
  | [] => []
  | [w] => w
  | w :: ws => w ++ ' ' :: joinSp ws

/-- Lines 117-129 of `video_service.py`: the segment texts produced from a
story — each sentence's words chunked into groups of at most 8, each chunk
joined by single spaces, all chunks concatenated in order. -/
def captionSegments (text : List Char) : List (List Char) :=
  ((senSplit text).map (fun s => (chunks8 (pyWords s)).map joinSp)).flatten

/-- Lines 144-146: a segment's provisional duration,
`max(word_count / 2.5, 1.5)`. -/
def segDuration (seg : List Char) : ℚ :=
  max (((pyWords seg).length : ℚ) / (5 / 2)) (3 / 2)

/-- Lines 140-148: left-to-right assignment of provisional
`(start, end)` pairs from the running clock `t`, with a 0.2 s gap after
each segment. -/
def timesFrom : ℚ → List (List Char) → List (ℚ × ℚ)
  | _, [] => []
  | t, s :: rest =>
    (t, t + segDuration s) :: timesFrom (t + segDuration s + 1 / 5) rest

/-- Lines 140-148 with the initial 0.5 s lead-in (`current_time = 0.5`). -/
def segmentTimes (segs : List (List Char)) : List (ℚ × ℚ) :=
  timesFrom (1 / 2) segs

/-- Lines 150-153: if the last end time exceeds `duration - 1`, every start
and end is multiplied by `(duration - 1) / lastEnd`; otherwise the times
are returned unchanged.  The guard `if segment_times and ...` makes the
empty list pass through. -/
def rescaleTimes (duration : ℚ) (ts : List (ℚ × ℚ)) : List (ℚ × ℚ) :=
  match ts.getLast? with
  | none => ts
  | some p =>
    if duration - 1 < p.2 then
      ts.map (fun q =>
        (q.1 * ((duration - 1) / p.2), q.2 * ((duration - 1) / p.2)))
    else ts

/-- The complete caption-timing synthesis of `_create_subtitle_file`: the
final `(start, end)` pairs, in segment order. -/
def synthTimes (text : List Char) (duration : ℚ) : List (ℚ × ℚ) :=
  rescaleTimes duration (segmentTimes (captionSegments text))

/-! ### Subprocess outcomes and the tiered encoder
(`video_service.py`, `_create_video_ffmpeg` and `_create_simple_video`) -/

/-- Outcome of one `subprocess.run(cmd, ..., timeout=300)` call as the code
observes it: `success` is `returncode == 0` together with the output file
existing, `exitFailure` is a non-zero exit or a missing output file, and
`timeoutRaised` is the `subprocess.TimeoutExpired` exception thrown after
300 s (which propagates out of `subprocess.run`). -/
inductive ProcOutcome
  | success
  | exitFailure
  | timeoutRaised
deriving DecidableEq

/-- The three encoder invocation shapes: tier A = full filter graph with
burned-in captions, tier B = the same call with `subtitle_path = None`
(the recursive `_create_video_ffmpeg` retry), tier C = the plain mux of
`_create_simple_video`. -/
inductive EncPlan
  | tierA
  | tierB
  | tierC
deriving DecidableEq

/-- `_create_simple_video` (lines 328-380): one subprocess invocation; the
result is `returncode == 0 and output_path.exists()`; any exception
(including `TimeoutExpired`) is caught and yields `False`. -/
def simpleVideoTrace (run : EncPlan → ProcOutcome) : Bool × List EncPlan :=
  match run .tierC with
  | .success => (true, [.tierC])
  | .exitFailure => (false, [.tierC])
  | .timeoutRaised => (false, [.tierC])

/-- The `subtitle_path = None` instance of `_create_video_ffmpeg`
(lines 237-326): on success `True`; on a non-zero exit or missing output it
falls through to `_create_simple_video`; a raised `TimeoutExpired` is
caught by the `except` block and returns `False` without any further tier.
The second component records the plans whose subprocess actually ran. -/
def encodeNoCaptionsTrace (run : EncPlan → ProcOutcome) : Bool × List EncPlan :=
  match run .tierB with
  | .success => (true, [.tierB])
  | .exitFailure =>
    ((simpleVideoTrace run).1, .tierB :: (simpleVideoTrace run).2)
  | .timeoutRaised => (false, [.tierB])

/-- `_create_video_ffmpeg` with the caption overlay present or absent.  The
Python function is one function whose recursive call drops the subtitle
path; here that single level of recursion is unrolled over the
`hasCaptions` flag. -/
def encodeTrace (run : EncPlan → ProcOutcome) (hasCaptions : Bool) :
    Bool × List EncPlan :=
  if hasCaptions then
    match run .tierA with
    | .success => (true, [.tierA])
    | .exitFailure =>
      ((encodeNoCaptionsTrace run).1, .tierA :: (encodeNoCaptionsTrace run).2)
    | .timeoutRaised => (false, [.tierA])
  else encodeNoCaptionsTrace run

/-! ### Duration probing (`_get_audio_duration`, lines 201-235) -/

/-- `_get_audio_duration`: `probeOut` is the parsed ffprobe output when the
tool ran with exit code 0 and non-empty stdout (`none` covers a missing
binary, non-zero exit, empty or malformed output — all caught); `statSize`
is the audio file's byte size, `none` if `stat` itself raises.  The
fallback estimate divides the size by the assumed bitrate 16000. -/
def getAudioDuration (probeOut : Option ℚ) (statSize : Option ℕ) : Option ℚ :=
  match probeOut with
  | some d => some d
  | none =>
    match statSize with
    | some n => some ((n : ℚ) / 16000)
    | none => none

/-- Lines 66-73 of `create_story_video`: with audio present, a probe result
that is `None` or below 5 is replaced by 30, and 2 s of padding are then
added unconditionally; without audio the duration is 30 (no padding). -/
def computeDuration (hasAudio : Bool) (probed : Option ℚ) : ℚ :=
  if hasAudio then
    (match probed with
     | none => (30 : ℚ)
     | some dur => if dur < 5 then (30 : ℚ) else dur) + 2
  else 30

/-! ### The composition pipeline (`create_story_video`, lines 34-105, and
`generate_video` in `main.py`, lines 182-230) -/

/-- Oracles for one composition request: whether PIL decodes and saves the
image, whether an audio asset is present, the ffprobe/stat outcomes, whether
writing `captions.srt` succeeds, and the outcome of each encoder plan. -/
structure Env where
  imageDecodes : Bool
  hasAudio : Bool
  probeOut : Option ℚ
  statSize : Option ℕ
  subtitleWriteOk : Bool
  run : EncPlan → ProcOutcome

/-- Observable effects of one composition: how many ffprobe subprocesses
ran, which encoder plans ran, whether a caption file was passed to the
encoder, and the computed target duration. -/
structure Trace where
  probeCalls : ℕ
  encodeCalls : List EncPlan
  usedCaptions : Bool
  duration : ℚ
deriving DecidableEq

/-- `create_story_video` (lines 34-105): save the image (returning `None`
with no subprocess when the decode fails, since `story_image.png` then does
not exist in the fresh session directory); compute the duration; create the
subtitle file when captions are enabled and the story text is non-empty
(yielding no subtitle file when the segment list is empty or the write
fails); then run the tiered encoder. -/
def composeRun (env : Env) (storyText : List Char) (enableCaptions : Bool) :
    Option Unit × Trace :=
  if env.imageDecodes then
    let probed := if env.hasAudio
      then getAudioDuration env.probeOut env.statSize else none
    let probeCalls : ℕ := if env.hasAudio then 1 else 0
    let dur := computeDuration env.hasAudio probed
    let hasCaps := enableCaptions && !storyText.isEmpty &&
      env.subtitleWriteOk && !(captionSegments storyText).isEmpty
    let enc := encodeTrace env.run hasCaps
    ((if enc.1 then some () else none), ⟨probeCalls, enc.2, hasCaps, dur⟩)
  else (none, ⟨0, [], false, 0⟩)

/-- The video branch of `generate_video` in `main.py`: the first component
is whether a video response is streamed, the second whether
`cleanup_session` was invoked on the session directory — which happens on
every path (background task after streaming on success, the
`except HTTPException` and `except Exception` handlers otherwise). -/
def generateVideo (env : Env) (storyText : List Char)
    (enableCaptions : Bool) : Bool × Bool :=
  match (composeRun env storyText enableCaptions).1 with
  | none => (false, true)
  | some _ => (true, true)

/-! ### Workspace cleanup (`file_handler.py`, `cleanup_session`,
lines 59-68) -/

/-- `cleanup_session`: given whether the session directory exists and
whether `shutil.rmtree` would raise, returns the directory's existence
afterwards and whether an exception escapes to the caller.  The body is
`try: if exists: rmtree(...) except Exception: print(warning)`. -/
def cleanupSession (dirExists : Bool) (rmtreeRaises : Bool) : Bool × Bool :=
  if dirExists then
    if rmtreeRaises then (true, false) else (false, false)
  else (false, false)

/-! ### Exception-level model of `create_story_video` (for the no-raise
guarantee of its outer `try`/`except Exception`) -/

/-- A Python exception, abstractly. -/
inductive PyErr
  | err
deriving DecidableEq

/-- Each statement of `create_story_video`'s `try` block, as a possibly
raising step: saving the image (line 60), the existence check (line 62),
duration probing (line 68), subtitle creation (line 80), the encoder call
(line 87) and the final output existence check (line 95).  Every helper
catches its own exceptions, so a raise here conservatively models any
runtime error escaping from the statement. -/
structure BodySteps where
  saveImage : Except PyErr Unit
  imageExists : Except PyErr Bool
  probeDuration : Except PyErr (Option ℚ)
  makeSubtitle : Except PyErr Bool
  encode : Except PyErr Bool
  outputExists : Except PyErr Bool

/-- The `try` block of `create_story_video` with its early returns:
`Except.error` means an exception is propagating; `Except.ok none` is the
`return None` paths; `Except.ok (some ())` is the success return. -/
def createStoryVideoBody (st : BodySteps) (hasAudio : Bool)
    (storyText : List Char) (enableCaptions : Bool) :
    Except PyErr (Option Unit) :=
  match st.saveImage with
  | .error e => .error e
  | .ok _ =>
    match st.imageExists with
    | .error e => .error e
    | .ok false => .ok none
    | .ok true =>
      match (if hasAudio then st.probeDuration else .ok none) with
      | .error e => .error e
      | .ok _ =>
        match (if enableCaptions && !storyText.isEmpty
               then st.makeSubtitle else .ok false) with
        | .error e => .error e
        | .ok _ =>
          match st.encode with
          | .error e => .error e
          | .ok false => .ok none
          | .ok true =>
            match st.outputExists with
            | .error e => .error e
            | .ok ex => .ok (if ex then some () else none)

/-- `create_story_video` as seen by its caller: the body wrapped in
`except Exception: ... return None` (lines 101-105). -/
def createStoryVideoE (st : BodySteps) (hasAudio : Bool)
    (storyText : List Char) (enableCaptions : Bool) :
    Except PyErr (Option Unit) :=
  match createStoryVideoBody st hasAudio storyText enableCaptions with
  | .ok r => .ok r
  | .error _ => .ok none

/-! ### Concrete inputs used in scenario theorems -/

/-- A 120-word single paragraph: 120 copies of the word `w`. -/
def w120 : List Char := joinSp (List.replicate 120 ['w'])

/-- The 8-word caption segment text arising from `w120`. -/
def seg8 : List Char := joinSp (List.replicate 8 ['w'])

/-- Encoder oracle under which tier A times out while the later tiers
would succeed. -/
def runTimeoutA : EncPlan → ProcOutcome
  | .tierA => .timeoutRaised
  | _ => .success

/-- Encoder oracle under which every tier exits non-zero. -/
def runAllFail : EncPlan → ProcOutcome := fun _ => .exitFailure

/-- Environment whose image payload fails to decode. -/
def envBadImage : Env :=
  ⟨false, true, some 12, some 100, true, fun _ => .success⟩

/-- Body steps whose very first statement raises. -/
def stRaise : BodySteps :=
  ⟨.error .err, .error .err, .error .err, .error .err, .error .err,
    .error .err⟩


/-! ### Word preservation through sentence splitting and chunking -/

theorem pyWords_nil : pyWords [] = [] := rfl

theorem pyWords_cons_space {c : Char} (h : isSpace c = true) (cs : List Char) :
    pyWords (c :: cs) = pyWords cs := by
  simp [pyWords, pyWordsAux, h]

theorem pyWordsAux_append_space {d : Char} (hd : isSpace d = true)
    (v : List Char) :
    ∀ (u acc : List Char),
      pyWordsAux (u ++ d :: v) acc = pyWordsAux u acc ++ pyWords v := by
  intro u
  induction u with
  | nil =>
    intro acc
    cases acc <;> simp [pyWordsAux, hd, pyWords]
  | cons a u ih =>
    intro acc
    by_cases ha : isSpace a = true
    · cases acc <;> simp [pyWordsAux, ha, ih]
    · simp [pyWordsAux, ha, ih]

theorem pyWords_append_space {d : Char} (hd : isSpace d = true)
    (u v : List Char) :
    pyWords (u ++ d :: v) = pyWords u ++ pyWords (d :: v) := by
  rw [pyWords_cons_space hd]
  exact pyWordsAux_append_space hd v u []

theorem senSplitAux_words :
    ∀ (l acc : List Char) (sk : Bool), (sk = true → acc = []) →
      ((senSplitAux l acc sk).map pyWords).flatten = pyWords (acc.reverse ++ l) := by
  intro l
  induction l with
  | nil =>
    intro acc sk _
    simp [senSplitAux]
  | cons c cs ih =>
    intro acc sk hsk
    cases sk with
    | true =>
      have hacc := hsk rfl
      subst hacc
      by_cases hc : isSpace c = true
      · simpa [senSplitAux, hc, pyWords_cons_space hc] using
          ih [] true (fun _ => rfl)
      · simpa [senSplitAux, hc] using ih [c] false (by simp)
    | false =>
      by_cases hc : isSpace c = true
      · match acc with
        | p :: ps =>
          by_cases hp : isTerm p = true
          · have hrest : ((senSplitAux cs [] true).map pyWords).flatten
                = pyWords cs := by
              simpa using ih [] true (fun _ => rfl)
            have hstep : senSplitAux (c :: cs) (p :: ps) false
                = (p :: ps).reverse :: senSplitAux cs [] true := by
              simp [senSplitAux, hc, hp]
            rw [hstep]
            simp only [List.map_cons, List.flatten_cons, hrest]
            rw [pyWords_append_space hc, pyWords_cons_space hc]
          · have := ih (c :: p :: ps) false (by simp)
            simpa [senSplitAux, hc, hp] using this
        | [] =>
          simpa [senSplitAux, hc] using ih [c] false (by simp)
      · have := ih (c :: acc) false (by simp)
        simpa [senSplitAux, hc] using this

theorem senSplit_words (l : List Char) :
    ((senSplit l).map pyWords).flatten = pyWords l := by
  simpa using senSplitAux_words l [] false (by simp)

theorem chunksAux_flatten {α : Type} :
    ∀ (l : List α) (n : ℕ) (acc : List α),
      (chunksAux l n acc).flatten = acc.reverse ++ l := by
  intro l
  induction l with
  | nil =>
    intro n acc
    cases acc <;> simp [chunksAux]
  | cons x xs ih =>
    intro n acc
    cases n with
    | zero => simp [chunksAux, ih]
    | succ m => simp [chunksAux, ih]

theorem chunks8_flatten {α : Type} (l : List α) : (chunks8 l).flatten = l := by
  simpa using chunksAux_flatten l 8 []

theorem pyWordsAux_words_good :
    ∀ (l acc : List Char), (∀ c ∈ acc, notSpace c = true) →
      ∀ w ∈ pyWordsAux l acc, w ≠ [] ∧ ∀ c ∈ w, notSpace c = true := by
  intro l
  induction l with
  | nil =>
    intro acc hacc w hw
    cases acc with
    | nil => simp [pyWordsAux] at hw
    | cons a as =>
      simp [pyWordsAux] at hw
      subst hw
      refine ⟨by simp, ?_⟩
      intro c hc
      rw [← List.reverse_cons] at hc
      exact hacc c (List.mem_reverse.mp hc)
  | cons c cs ih =>
    intro acc hacc w hw
    by_cases hc : isSpace c = true
    · cases acc with
      | nil =>
        simp [pyWordsAux, hc] at hw
        exact ih [] (by simp) w hw
      | cons a as =>
        simp [pyWordsAux, hc] at hw
        rcases hw with hw | hw
        · subst hw
          refine ⟨by simp, ?_⟩
          intro x hx
          rw [← List.reverse_cons] at hx
          exact hacc x (List.mem_reverse.mp hx)
        · exact ih [] (by simp) w hw
    · simp only [pyWordsAux, hc, if_false] at hw
      refine ih (c :: acc) ?_ w hw
      intro x hx
      rcases List.mem_cons.mp hx with hx | hx
      · subst hx; simp [notSpace, hc]
      · exact hacc x hx

theorem pyWords_words_good (l : List Char) :
    ∀ w ∈ pyWords l, w ≠ [] ∧ ∀ c ∈ w, notSpace c = true :=
  pyWordsAux_words_good l [] (by simp)

theorem pyWordsAux_all_nonspace :
    ∀ (l acc : List Char), (∀ c ∈ l, notSpace c = true) →
      pyWordsAux l acc =
        if acc.reverse ++ l = [] then [] else [acc.reverse ++ l] := by
  intro l
  induction l with
  | nil =>
    intro acc _
    cases acc <;> simp [pyWordsAux]
  | cons c cs ih =>
    intro acc hl
    have hc : notSpace c = true := hl c (by simp)
    have hc' : isSpace c = false := by
      simpa [notSpace] using hc
    have := ih (c :: acc) (fun x hx => hl x (by simp [hx]))
    simp [pyWordsAux, hc', this]

theorem pyWords_single {w : List Char} (hne : w ≠ [])
    (hns : ∀ c ∈ w, notSpace c = true) : pyWords w = [w] := by
  have := pyWordsAux_all_nonspace w [] hns
  simpa [pyWords, hne] using this

theorem joinSp_pyWords :
    ∀ (ws : List (List Char)),
      (∀ w ∈ ws, w ≠ [] ∧ ∀ c ∈ w, notSpace c = true) →
      pyWords (joinSp ws) = ws := by
  intro ws
  induction ws with
  | nil => intro _; rfl
  | cons w tail ih =>
    intro h
    cases tail with
    | nil =>
      have hw := h w (by simp)
      simpa [joinSp] using pyWords_single hw.1 hw.2
    | cons w2 ws2 =>
      have hw := h w (by simp)
      have hsp : isSpace ' ' = true := by simp [isSpace]
      have step : pyWords (w ++ ' ' :: joinSp (w2 :: ws2)) =
          pyWords w ++ pyWords (' ' :: joinSp (w2 :: ws2)) :=
        pyWords_append_space hsp w _
      have htail := ih (fun x hx => h x (by simp [hx]))
      simp [joinSp, step, pyWords_single hw.1 hw.2,
        pyWords_cons_space hsp, htail]

theorem chunks8_pyWords (ws : List (List Char))
    (h : ∀ w ∈ ws, w ≠ [] ∧ ∀ c ∈ w, notSpace c = true) :
    (((chunks8 ws).map joinSp).map pyWords).flatten = ws := by
  have hmem : ∀ c ∈ chunks8 ws, ∀ w ∈ c, w ∈ ws := by
    intro c hc w hw
    have : w ∈ (chunks8 ws).flatten := List.mem_flatten.mpr ⟨c, hc, hw⟩
    simpa [chunks8_flatten] using this
  have hcongr : ((chunks8 ws).map (pyWords ∘ joinSp)) =
      (chunks8 ws).map id := by
    refine List.map_congr_left ?_
    intro c hc
    exact joinSp_pyWords c (fun w hw => h w (hmem c hc w hw))
  calc (((chunks8 ws).map joinSp).map pyWords).flatten
      = ((chunks8 ws).map (pyWords ∘ joinSp)).flatten := by rw [List.map_map]
    _ = ((chunks8 ws).map id).flatten := by rw [hcongr]
    _ = ws := by simpa using chunks8_flatten ws

theorem captionSegments_words (text : List Char) :
    ((captionSegments text).map pyWords).flatten = pyWords text := by
  have aux : ∀ (sentences : List (List Char)),
      (((sentences.map
          (fun s => (chunks8 (pyWords s)).map joinSp)).flatten).map
            pyWords).flatten
        = (sentences.map pyWords).flatten := by
    intro sentences
    induction sentences with
    | nil => rfl
    | cons s rest ih =>
      simp only [List.map_cons, List.flatten_cons, List.map_append,
        List.flatten_append, ih]
      congr 1
      exact chunks8_pyWords (pyWords s) (pyWords_words_good s)
  calc ((captionSegments text).map pyWords).flatten
      = ((senSplit text).map pyWords).flatten := aux (senSplit text)
    _ = pyWords text := senSplit_words text

/-! ### Timing invariants of the synthesized captions -/

theorem segDuration_ge (seg : List Char) : (3 / 2 : ℚ) ≤ segDuration seg :=
  le_max_right _ _

theorem timesFrom_bounds :
    ∀ (segs : List (List Char)) (t : ℚ), ∀ p ∈ timesFrom t segs,
      t ≤ p.1 ∧ p.1 + 3 / 2 ≤ p.2 := by
  intro segs
  induction segs with
  | nil => intro t p hp; simp [timesFrom] at hp
  | cons s rest ih =>
    intro t p hp
    rcases List.mem_cons.mp hp with hp | hp
    · subst hp
      refine ⟨le_refl t, ?_⟩
      have := segDuration_ge s
      simp only []
      linarith
    · have h := ih (t + segDuration s + 1 / 5) p hp
      have := segDuration_ge s
      exact ⟨by linarith [h.1], h.2⟩

theorem timesFrom_chain :
    ∀ (segs : List (List Char)) (t : ℚ),
      (timesFrom t segs).Chain' (fun p q => p.1 < q.1 ∧ p.2 < q.1) := by
  intro segs
  induction segs with
  | nil => intro t; simp [timesFrom]
  | cons s rest ih =>
    intro t
    rw [timesFrom]
    refine List.chain'_cons'.mpr ⟨?_, ih _⟩
    intro q hq
    cases rest with
    | nil => simp [timesFrom] at hq
    | cons s2 r2 =>
      simp only [timesFrom, List.head?_cons, Option.mem_def,
        Option.some.injEq] at hq
      subst hq
      have := segDuration_ge s
      constructor <;> (simp only []; linarith)

theorem getLast?_mem_list {α : Type} {l : List α} {a : α}
    (h : l.getLast? = some a) : a ∈ l := by
  rcases List.getLast?_eq_some_iff.mp h with ⟨ys, rfl⟩
  simp

/-- C1 foundation: for target durations strictly above 1 second, the times
produced by `_create_subtitle_file` (lines 139-153) satisfy `start < end`
for every segment, strictly increasing starts, no overlap between
consecutive segments, and — when the rescaling of lines 150-153 triggers —
a final end time of exactly `duration - 1`. -/
theorem synthTimes_invariants_core (text : List Char) (d : ℚ) (hd : 1 < d) :
    (∀ p ∈ synthTimes text d, p.1 < p.2) ∧
    (synthTimes text d).Chain' (fun p q => p.1 < q.1 ∧ p.2 ≤ q.1) ∧
    (∀ le0, (segmentTimes (captionSegments text)).getLast?.map Prod.snd
        = some le0 → d - 1 < le0 →
      (synthTimes text d).getLast?.map Prod.snd = some (d - 1)) := by
  set segs := captionSegments text with hsegs
  have hb := timesFrom_bounds segs (1 / 2)
  have hchain := timesFrom_chain segs (1 / 2)
  have hlt : ∀ p ∈ segmentTimes segs, p.1 < p.2 := by
    intro p hp
    have := hb p hp
    linarith [this.2]
  have hchain' : (segmentTimes segs).Chain'
      (fun p q : ℚ × ℚ => p.1 < q.1 ∧ p.2 ≤ q.1) :=
    hchain.imp (fun a b hab => ⟨hab.1, le_of_lt hab.2⟩)
  rcases hlast : (segmentTimes segs).getLast? with _ | p
  · have hts : synthTimes text d = segmentTimes segs := by
      simp [synthTimes, rescaleTimes, ← hsegs, hlast]
    rw [hts]
    exact ⟨hlt, hchain', by intro le0 h0; simp at h0⟩
  · have hple : (2 : ℚ) ≤ p.2 := by
      have := hb p (getLast?_mem_list hlast)
      linarith [this.1, this.2]
    by_cases htrig : d - 1 < p.2
    · have hpos : (0 : ℚ) < (d - 1) / p.2 :=
        div_pos (by linarith) (by linarith)
      have hmap : synthTimes text d = (segmentTimes segs).map
          (fun q => (q.1 * ((d - 1) / p.2), q.2 * ((d - 1) / p.2))) := by
        simp [synthTimes, rescaleTimes, ← hsegs, hlast, htrig]
      refine ⟨?_, ?_, ?_⟩
      · intro q hq
        rw [hmap] at hq
        rcases List.mem_map.mp hq with ⟨q0, hq0, rfl⟩
        exact mul_lt_mul_of_pos_right (hlt q0 hq0) hpos
      · rw [hmap]
        rw [List.chain'_map]
        refine hchain'.imp ?_
        intro a b hab
        exact ⟨mul_lt_mul_of_pos_right hab.1 hpos,
          mul_le_mul_of_nonneg_right hab.2 (le_of_lt hpos)⟩
      · intro le0 h0 _
        rw [hmap, List.getLast?_map, hlast]
        have : p.2 * ((d - 1) / p.2) = d - 1 := by
          rw [mul_comm]
          exact div_mul_cancel₀ _ (by linarith)
        simp [this]
    · have hts : synthTimes text d = segmentTimes segs := by
        simp [synthTimes, rescaleTimes, ← hsegs, hlast, htrig]
      rw [hts]
      refine ⟨hlt, hchain', ?_⟩
      intro le0 h0 htrig'
      simp at h0
      subst h0
      exact absurd htrig' htrig

/-! ### The 120-word scenario, evaluated -/

set_option maxRecDepth 8000 in
theorem captionSegments_w120 :
    captionSegments w120 = List.replicate 15 seg8 := by decide

theorem segDuration_seg8 : segDuration seg8 = 16 / 5 := by
  have hlen : (pyWords seg8).length = 8 := by decide
  rw [segDuration, hlen]
  norm_num

theorem segmentTimes_w120 :
    segmentTimes (captionSegments w120) =
      [(1/2, 37/10), (39/10, 71/10), (73/10, 21/2), (107/10, 139/10),
       (141/10, 173/10), (35/2, 207/10), (209/10, 241/10), (243/10, 55/2),
       (277/10, 309/10), (311/10, 343/10), (69/2, 377/10),
       (379/10, 411/10), (413/10, 89/2), (447/10, 479/10),
       (481/10, 513/10)] := by
  rw [captionSegments_w120]
  have hrep : List.replicate 15 seg8 =
      [seg8, seg8, seg8, seg8, seg8, seg8, seg8, seg8, seg8, seg8, seg8,
       seg8, seg8, seg8, seg8] := rfl
  rw [hrep]
  simp only [segmentTimes, timesFrom, segDuration_seg8]
  norm_num

theorem synthTimes_w120 :
    synthTimes w120 30 =
      [(145/513, 1073/513), (377/171, 2059/513), (2117/513, 1015/171),
       (3103/513, 4031/513), (1363/171, 5017/513), (5075/513, 667/57),
       (319/27, 6989/513), (261/19, 7975/513), (8033/513, 2987/171),
       (9019/513, 9947/513), (3335/171, 10933/513), (10991/513, 3973/171),
       (11977/513, 12905/513), (4321/171, 13891/513), (13949/513, 29)] := by
  have hlast : (segmentTimes (captionSegments w120)).getLast?
      = some (481/10, 513/10) := by
    rw [segmentTimes_w120]
    simp
  rw [synthTimes, rescaleTimes, hlast, segmentTimes_w120]
  norm_num

/-! ### Claims -/

/-- C1 (counterexample): at the positive target duration 0.5 s the story
`"a"` yields the single rescaled segment `(-1/8, -1/2)`, whose start is not
below its end — the invariant claimed for every positive target duration
fails, because the rescaling factor `(duration - 1) / lastEnd` is negative
when `duration < 1`. -/
theorem C1_counterexample :
    (0 : ℚ) < 1 / 2 ∧
    synthTimes ['a'] (1 / 2) = [(-(1 / 8), -(1 / 2))] ∧
    ¬ ((-(1 / 8) : ℚ) < -(1 / 2)) := by
  refine ⟨by norm_num, ?_, by norm_num⟩
  have hseg : captionSegments ['a'] = [['a']] := by decide
  have hlen : (pyWords ['a']).length = 1 := by decide
  have hdur : segDuration ['a'] = 3 / 2 := by
    rw [segDuration, hlen]; norm_num
  have hts : segmentTimes (captionSegments ['a']) = [(1 / 2, 2)] := by
    rw [hseg]
    simp only [segmentTimes, timesFrom, hdur]
    norm_num
  rw [synthTimes, hts]
  show rescaleTimes (1 / 2) [(1 / 2, 2)] = _
  rw [rescaleTimes]
  simp only [List.getLast?_singleton]
  rw [if_pos (by norm_num)]
  simp only [List.map_cons, List.map_nil]
  norm_num

/-- C1 (amended: for every target duration strictly greater than 1 second):
every synthesized segment has `start < end`, starts are strictly
increasing, consecutive segments do not overlap, and whenever the
rescaling step triggers the final end time equals `targetDuration - 1`. -/
theorem C1_caption_invariants (text : List Char) (d : ℚ) (hd : 1 < d) :
    (∀ p ∈ synthTimes text d, p.1 < p.2) ∧
    (synthTimes text d).Chain' (fun p q => p.1 < q.1 ∧ p.2 ≤ q.1) ∧
    (∀ le0, (segmentTimes (captionSegments text)).getLast?.map Prod.snd
        = some le0 → d - 1 < le0 →
      (synthTimes text d).getLast?.map Prod.snd = some (d - 1)) :=
  synthTimes_invariants_core text d hd

/-- C1 (witness): the invariants instantiated at the story `"a"` with a
30 s target duration. -/
theorem C1_caption_invariants_witness :
    (1 : ℚ) < 30 ∧
    ((∀ p ∈ synthTimes ['a'] 30, p.1 < p.2) ∧
     (synthTimes ['a'] 30).Chain' (fun p q => p.1 < q.1 ∧ p.2 ≤ q.1) ∧
     (∀ le0, (segmentTimes (captionSegments ['a'])).getLast?.map Prod.snd
         = some le0 → 30 - 1 < le0 →
       (synthTimes ['a'] 30).getLast?.map Prod.snd = some (30 - 1))) :=
  ⟨by norm_num, C1_caption_invariants ['a'] 30 (by norm_num)⟩

/-- C2 (counterexample): when tier A's subprocess times out, the code
returns failure immediately — tier B is never attempted even though it
would succeed, contradicting the claim that a timeout is treated like a
non-zero exit for the purpose of advancing tiers. -/
theorem C2_counterexample :
    encodeTrace runTimeoutA true = (false, [EncPlan.tierA]) ∧
    runTimeoutA EncPlan.tierB = ProcOutcome.success ∧
    EncPlan.tierB ∉ (encodeTrace runTimeoutA true).2 := by decide

/-- C2 (amended): a non-zero exit (or missing output) at tier A advances to
tier B and then tier C, with terminal failure exactly when tier C does not
succeed; but a raised 300 s timeout at tier A aborts the invocation with
failure without attempting any further tier. -/
theorem C2_tier_degradation (run : EncPlan → ProcOutcome) :
    (run EncPlan.tierA = ProcOutcome.success →
      encodeTrace run true = (true, [EncPlan.tierA])) ∧
    (run EncPlan.tierA = ProcOutcome.timeoutRaised →
      encodeTrace run true = (false, [EncPlan.tierA])) ∧
    (run EncPlan.tierA = ProcOutcome.exitFailure →
      (encodeTrace run true).2
        = EncPlan.tierA :: (encodeNoCaptionsTrace run).2 ∧
      EncPlan.tierB ∈ (encodeTrace run true).2) ∧
    (run EncPlan.tierA = ProcOutcome.exitFailure →
      run EncPlan.tierB = ProcOutcome.exitFailure →
      (encodeTrace run true).2
        = [EncPlan.tierA, EncPlan.tierB, EncPlan.tierC] ∧
      ((encodeTrace run true).1 = true ↔
        run EncPlan.tierC = ProcOutcome.success)) := by
  rcases hA : run EncPlan.tierA <;> rcases hB : run EncPlan.tierB <;>
    rcases hC : run EncPlan.tierC <;>
      simp [encodeTrace, encodeNoCaptionsTrace, simpleVideoTrace, hA, hB, hC]

/-- C2 (witness): with every tier exiting non-zero, all three tiers run in
order and the invocation is a terminal failure. -/
theorem C2_tier_degradation_witness :
    (encodeTrace runAllFail true).2
      = [EncPlan.tierA, EncPlan.tierB, EncPlan.tierC] ∧
    ¬ ((encodeTrace runAllFail true).1 = true) := by
  have h := (C2_tier_degradation runAllFail).2.2.2 rfl rfl
  exact ⟨h.1, fun hh => by cases h.2.mp hh⟩

/-- C3 (counterexample): with audio present and an unavailable probe, the
computed duration is 32 s (default 30 plus 2 s padding), not the claimed
fixed default of 30 s. -/
theorem C3_counterexample :
    computeDuration true none = 32 ∧ (32 : ℚ) ≠ 30 := by
  constructor
  · simp [computeDuration]; norm_num
  · norm_num

/-- C3 (amended): with audio present, a probed duration of at least 5 s
yields `d + 2` (2 s padding); a probe returning `None` or a value below
the 5 s sanity floor yields `30 + 2 = 32`; with no audio asset the
duration is exactly 30 with no padding. -/
theorem C3_duration_policy (d : ℚ) (p : Option ℚ) :
    (5 ≤ d → computeDuration true (some d) = d + 2) ∧
    (d < 5 → computeDuration true (some d) = 32) ∧
    computeDuration true none = 32 ∧
    computeDuration false p = 30 := by
  refine ⟨?_, ?_, ?_, ?_⟩
  · intro h
    simp [computeDuration, not_lt.mpr h]
  · intro h
    simp [computeDuration, h]
    norm_num
  · simp [computeDuration]
    norm_num
  · simp [computeDuration]

/-- C3 (witness): a 10 s probe gives a 12 s duration; a 2 s probe is below
the sanity floor and gives 32 s. -/
theorem C3_duration_policy_witness :
    ((5 : ℚ) ≤ 10 ∧ computeDuration true (some 10) = 12) ∧
    ((2 : ℚ) < 5 ∧ computeDuration true (some 2) = 32) := by
  refine ⟨⟨by norm_num, ?_⟩, ⟨by norm_num, ?_⟩⟩
  · have h := (C3_duration_policy 10 none).1 (by norm_num)
    rw [h]; norm_num
  · exact (C3_duration_policy 2 none).2.1 (by norm_num)

/-- C4 (counterexample): the story `" "` is non-empty text yet synthesis
produces zero segments, refuting "for every non-empty story text at least
one caption segment". -/
theorem C4_counterexample :
    ([' '] : List Char) ≠ [] ∧ captionSegments [' '] = [] := by decide

/-- C4 (amended): every story text containing at least one
whitespace-separated word yields at least one segment; empty text yields
zero segments, and the caller then passes no caption file to the encoder
(captioning disabled, no error raised). -/
theorem C4_segments_nonempty (text : List Char) (env : Env) (cap : Bool) :
    (pyWords text ≠ [] → captionSegments text ≠ []) ∧
    captionSegments [] = [] ∧
    (composeRun env [] cap).2.usedCaptions = false := by
  refine ⟨?_, rfl, ?_⟩
  · intro hw hcontra
    have h := captionSegments_words text
    rw [hcontra] at h
    exact hw (by simpa using h.symm)
  · rcases env with ⟨idec, ha, po, ss, sw, run⟩
    cases idec <;> simp [composeRun]

/-- C4 (witness): the two-word story `"hi"` has a word and at least one
segment. -/
theorem C4_segments_nonempty_witness :
    pyWords ['h', 'i'] ≠ [] ∧ captionSegments ['h', 'i'] ≠ [] :=
  ⟨by decide,
    (C4_segments_nonempty ['h', 'i'] envBadImage false).1 (by decide)⟩

/-- C5: when the inspection tool is unavailable (`probeOut = none`), the
probe returns exactly `N / 16000` for an `N`-byte asset — characterised by
`q * 16000 = N` — and a 480000-byte asset yields exactly 30 s. -/
theorem C5_probe_fallback (n : ℕ) :
    getAudioDuration none (some n) = some ((n : ℚ) / 16000) ∧
    (∀ q, getAudioDuration none (some n) = some q → q * 16000 = (n : ℚ)) ∧
    getAudioDuration none (some 480000) = some 30 := by
  refine ⟨rfl, ?_, ?_⟩
  · intro q hq
    have hq' : q = (n : ℚ) / 16000 := by
      simpa [getAudioDuration] using hq.symm
    subst hq'
    exact div_mul_cancel₀ _ (by norm_num)
  · simp [getAudioDuration]
    norm_num

/-- C5 (witness): the 480000-byte scenario, via the characterisation. -/
theorem C5_probe_fallback_witness :
    (30 : ℚ) * 16000 = ((480000 : ℕ) : ℚ) :=
  (C5_probe_fallback 480000).2.1 30 (C5_probe_fallback 480000).2.2

/-- C6 (counterexample): for the 120-word single paragraph at a 30 s
target, the first segment's start time is `145/513 ≈ 0.28 s`, not
approximately 0.5 s (reading "approximately 0.5 s" as within 0.1 s): the
0.5 s lead-in is itself multiplied by the rescaling factor `29/51.3`. -/
theorem C6_counterexample :
    (synthTimes w120 30).head?.map Prod.fst = some (145 / 513) ∧
    ¬ (|(145 / 513 : ℚ) - 1 / 2| ≤ 1 / 10) := by
  constructor
  · rw [synthTimes_w120]
    rfl
  · intro h
    exact absurd (abs_le.mp h).1 (by norm_num)

set_option maxRecDepth 8000 in
/-- C6 (amended): the 120-word single paragraph at a 30 s target yields
exactly 15 segments of at most 8 words each, the last end time is exactly
29 s (hence at most 29 s), and the first start time is `145/513 ≈ 0.28 s`
— the 0.5 s lead-in times the rescaling factor `290/513` — rather than
approximately 0.5 s. -/
theorem C6_scenario :
    (captionSegments w120).length = 15 ∧
    (captionSegments w120).all (fun s => (pyWords s).length ≤ 8) = true ∧
    (synthTimes w120 30).head?.map Prod.fst = some (145 / 513) ∧
    (synthTimes w120 30).getLast?.map Prod.snd = some 29 ∧
    (29 : ℚ) ≤ 30 - 1 := by
  refine ⟨by decide, by decide, ?_, ?_, by norm_num⟩
  · rw [synthTimes_w120]
    rfl
  · rw [synthTimes_w120]
    simp

/-- C7: when the image payload does not decode, composition returns the
failure signal with zero probe subprocesses and zero encoder subprocesses
invoked, and the caller's cleanup of the session workspace still runs. -/
theorem C7_asset_error (env : Env) (text : List Char) (cap : Bool)
    (h : env.imageDecodes = false) :
    (composeRun env text cap).1 = none ∧
    (composeRun env text cap).2.probeCalls = 0 ∧
    (composeRun env text cap).2.encodeCalls = [] ∧
    (generateVideo env text cap).2 = true := by
  simp [composeRun, generateVideo, h]

/-- C7 (witness): the undecodable-image environment, concretely. -/
theorem C7_asset_error_witness :
    envBadImage.imageDecodes = false ∧
    ((composeRun envBadImage ['h'] true).1 = none ∧
     (composeRun envBadImage ['h'] true).2.probeCalls = 0 ∧
     (composeRun envBadImage ['h'] true).2.encodeCalls = [] ∧
     (generateVideo envBadImage ['h'] true).2 = true) :=
  ⟨rfl, C7_asset_error envBadImage ['h'] true rfl⟩

/-- C8: `cleanup_session` never raises to its caller, destroying a
never-created workspace is a no-op, and a second destroy after a first one
neither raises nor resurrects the directory. -/
theorem C8_destroy_idempotent (dirExists r1 r2 : Bool) :
    (cleanupSession dirExists r1).2 = false ∧
    cleanupSession false r1 = (false, false) ∧
    (cleanupSession (cleanupSession dirExists r1).1 r2).2 = false ∧
    (cleanupSession (cleanupSession dirExists false).1 r2).1 = false := by
  cases dirExists <;> cases r1 <;> cases r2 <;> simp [cleanupSession]

/-- C9: the words of the synthesized segments, concatenated in order, are
exactly the whitespace-separated words of the input story text — sentence
splitting and 8-word chunking neither drop, duplicate, nor reorder any
word. -/
theorem C9_words_preserved (text : List Char) :
    ((captionSegments text).map pyWords).flatten = pyWords text :=
  captionSegments_words text

/-- C10: `create_story_video` never lets an exception escape — whatever
each step of its body does (including raising), the caller sees
`Except.ok`, and a raising body yields the `None` result. -/
theorem C10_no_raise (st : BodySteps) (hasAudio : Bool)
    (text : List Char) (cap : Bool) :
    (∃ o, createStoryVideoE st hasAudio text cap = Except.ok o) ∧
    (∀ e, createStoryVideoBody st hasAudio text cap = Except.error e →
      createStoryVideoE st hasAudio text cap = Except.ok none) := by
  constructor
  · cases h : createStoryVideoBody st hasAudio text cap with
    | error e => exact ⟨none, by simp [createStoryVideoE, h]⟩
    | ok r => exact ⟨r, by simp [createStoryVideoE, h]⟩
  · intro e he
    simp [createStoryVideoE, he]

/-- C10 (witness): with the first body statement raising, the caller still
receives `Except.ok none`. -/
theorem C10_no_raise_witness :
    createStoryVideoBody stRaise true [] false = Except.error PyErr.err ∧
    createStoryVideoE stRaise true [] false = Except.ok none :=
  ⟨rfl, (C10_no_raise stRaise true [] false).2 PyErr.err rfl⟩

end KathaChitra
